import Mathlib

/-!
Verification of the easy-cal schedule frontend.

Times flow through the JavaScript code as "HH:MM" strings; we embed them as
lists of UTF-16 code units (`List Nat`), and embed the string plumbing the
code uses (split, parseInt, Number, padStart, trim, lexicographic string
comparison, the 12-hour regex) char-by-char, so that every definition mirrors
the corresponding JavaScript function.
-/

namespace EasyCal

/-- Code-unit test for an ASCII digit, mirroring the digit classes of the
JavaScript regexes and of parseInt. -/
def isDigitCode (c : Nat) : Bool := 48 ≤ c && c ≤ 57

/-- Accumulator loop for parseInt: consume leading digits, stop at the first
non-digit. -/
def parseDigits : Nat → List Nat → Nat
  | acc, [] => acc
  | acc, c :: cs => if isDigitCode c then parseDigits (acc * 10 + (c - 48)) cs else acc

/-- JavaScript parseInt / Number on a digit string (the only shapes the
schedule code feeds it): value of the leading run of digits. -/
def parseIntCodes (l : List Nat) : Nat := parseDigits 0 l

/-- Split a string at the first occurrence of a separator, returning the part
before and the part after.  This captures the `split(sep)` uses in the code,
all of which destructure exactly the first two fields. -/
def splitOnce (sep : Nat) : List Nat → List Nat × List Nat
  | [] => ([], [])
  | c :: cs =>
    if c = sep then ([], cs)
    else
      let p := splitOnce sep cs
      (c :: p.1, p.2)

/-- Two-digit decimal rendering of a number below 100 (code units). -/
def pad2Codes (n : Nat) : List Nat := [48 + n / 10, 48 + n % 10]

/-- JavaScript `toString()` of a number below 100: one digit below 10,
two digits otherwise. -/
def numCodes (n : Nat) : List Nat := if n < 10 then [48 + n] else pad2Codes n

/-- JavaScript `padStart(2, '0')` on a rendered number. -/
def padStart2 (l : List Nat) : List Nat := if l.length < 2 then 48 :: l else l

/-- The code units of a 24-hour "HH:MM" string with zero-padded fields. -/
def fmt24 (hh mm : Nat) : List Nat := pad2Codes hh ++ [58] ++ pad2Codes mm

/-- JavaScript whitespace test (`\s`) restricted to the ASCII whitespace
characters that can occur in the strings this code builds. -/
def isJsSpace (c : Nat) : Bool := c = 32 || c = 9 || c = 10 || c = 13 || c = 12 || c = 11

/-- JavaScript `String.prototype.trim` on code units. -/
def jsTrimCodes (l : List Nat) : List Nat :=
  ((l.dropWhile isJsSpace).reverse.dropWhile isJsSpace).reverse

/-- JavaScript string `<`: lexicographic comparison of code units. -/
def jsStrLt : List Nat → List Nat → Bool
  | [], [] => false
  | [], _ :: _ => true
  | _ :: _, [] => false
  | a :: as, b :: bs => if a < b then true else if b < a then false else jsStrLt as bs

/-- Lean rendering of a code-unit string, used when the JavaScript code
splices a time string into a template literal. -/
def codesToString (l : List Nat) : String := String.mk (l.map (fun c => Char.ofNat c))

/-- ASCII lower-casing of one character, as `toLowerCase` acts on the
day-name strings this code compares. -/
def jsLowerChar (c : Char) : Char :=
  if 65 ≤ c.toNat ∧ c.toNat ≤ 90 then Char.ofNat (c.toNat + 32) else c

/-- JavaScript `toLowerCase` on the ASCII day names used by the code. -/
def jsToLowerCase (s : String) : String := String.mk (s.data.map jsLowerChar)

/-- ScheduleDisplay's `to12Hour` (identical in both ScheduleDisplay versions
and in StudentSchedulesView): split "HH:MM" on the colon, parse the hour,
keep the minute substring, and render `hour12:minutes ampm` where
`hour12 = hour % 12 || 12`. -/
def to12Hour (time24 : List Nat) : List Nat :=
  let p := splitOnce 58 time24
  let hour := parseIntCodes p.1
  let minutes := p.2
  let ampm := if 12 ≤ hour then [80, 77] else [65, 77]
  let hour12 := if hour % 12 = 0 then 12 else hour % 12
  numCodes hour12 ++ [58] ++ minutes ++ [32] ++ ampm

/-- ScheduleDisplay's `to24Hour`: split "h:MM AMPM" on the space and the
colon, adjust the hour for AM/PM, and render it zero-padded via
`toString().padStart(2, '0')` followed by the minute substring. -/
def to24Hour (time12 : List Nat) : List Nat :=
  let q := splitOnce 32 time12
  let p := splitOnce 58 q.1
  let h := parseIntCodes p.1
  let hour24 :=
    if q.2 = [80, 77] && !(h = 12) then h + 12
    else if q.2 = [65, 77] && h = 12 then 0
    else h
  padStart2 (numCodes hour24) ++ [58] ++ p.2

/-- Case-insensitive check for "AM" (false) or "PM" (true) at the head of the
remaining input: the `(AM|PM)/i` tail of StudentSchedulesView's regex. -/
def checkAmPm : List Nat → Option Bool
  | a :: m :: _ =>
    if (a = 65 || a = 97) && (m = 77 || m = 109) then some false
    else if (a = 80 || a = 112) && (m = 77 || m = 109) then some true
    else none
  | _ => none

/-- The `\s*(AM|PM)` tail of the regex: skip whitespace, then match AM/PM. -/
def skipSpacesAmPm : List Nat → Option Bool
  | [] => none
  | c :: rest => if isJsSpace c then skipSpacesAmPm rest else checkAmPm (c :: rest)

/-- The `:(\d{2})\s*(AM|PM)` tail of the regex, returning the two minute
digits and the AM/PM flag. -/
def matchTail : List Nat → Option (List Nat × Bool)
  | 58 :: d1 :: d2 :: rest =>
    if isDigitCode d1 && isDigitCode d2 then
      match skipSpacesAmPm rest with
      | some pm => some ([d1, d2], pm)
      | none => none
    else none
  | _ => none

/-- Attempt `(\d{1,2}):(\d{2})\s*(AM|PM)` at the current position, with the
regex engine's greedy-then-backtrack choice for the one-or-two hour digits. -/
def tryMatch12 : List Nat → Option (List Nat × List Nat × Bool)
  | [] => none
  | d1 :: rest =>
    if isDigitCode d1 then
      match rest with
      | d2 :: rest2 =>
        if isDigitCode d2 then
          match matchTail rest2 with
          | some (mins, pm) => some ([d1, d2], mins, pm)
          | none =>
            match matchTail rest with
            | some (mins, pm) => some ([d1], mins, pm)
            | none => none
        else
          match matchTail rest with
          | some (mins, pm) => some ([d1], mins, pm)
          | none => none
      | [] => none
    else none

/-- Unanchored search of StudentSchedulesView's regex
`(\d{1,2}):(\d{2})\s*(AM|PM)/i`: first position with a match wins. -/
def regexMatch12 : List Nat → Option (List Nat × List Nat × Bool)
  | [] => none
  | c :: cs =>
    match tryMatch12 (c :: cs) with
    | some r => some r
    | none => regexMatch12 cs

/-- StudentSchedulesView's `to24Hour` (App.jsx): empty input returns empty;
otherwise match the trimmed input against the 12-hour regex.  With no match
the input is returned unchanged (both no-match branches return `time12`).
A matched hour outside 1..12 also returns the input unchanged; otherwise the
hour is adjusted for AM/PM and rendered zero-padded before the matched
minute digits. -/
def to24HourApp (time12 : List Nat) : List Nat :=
  if time12 = [] then []
  else
    match regexMatch12 (jsTrimCodes time12) with
    | none => time12
    | some (hstr, minutes, isPM) =>
      let hour := parseIntCodes hstr
      if hour < 1 || 12 < hour then time12
      else
        let hour' :=
          if isPM && !(hour = 12) then hour + 12
          else if !isPM && hour = 12 then 0
          else hour
        padStart2 (numCodes hour') ++ [58] ++ minutes

/-- ScheduleDisplay's `timeToMinutes`: split "HH:MM" on the colon and map
both fields through Number. -/
def timeToMinutes (timeStr : List Nat) : Nat :=
  let p := splitOnce 58 timeStr
  parseIntCodes p.1 * 60 + parseIntCodes p.2

/-- ScheduleDisplay's `timeRangesOverlap`: two ranges overlap unless one ends
at or before the other starts. -/
def timeRangesOverlap (start1 end1 start2 end2 : List Nat) : Bool :=
  let s1 := timeToMinutes start1
  let e1 := timeToMinutes end1
  let s2 := timeToMinutes start2
  let e2 := timeToMinutes end2
  !(e1 ≤ s2 || s1 ≥ e2)

/-- One entry of the flat `schedule` list of a ScheduleResult, as
ScheduleDisplay consumes it: a type tag ("session" | "lunch" | "prep" |
"blocked"), a day, "HH:MM" start and end strings, and the optional student /
students / subject / label fields. -/
structure Slot where
  type : String
  day : String
  start : List Nat
  endT : List Nat
  student : Option String
  students : Option (List String)
  subject : Option String
  label : Option String
  deriving DecidableEq, Repr

/-- The schedule payload handed to ScheduleDisplay (`scheduleData`). -/
structure ScheduleData where
  schedule : List Slot
  success : Bool
  message : String
  conflicts : List String
  deriving DecidableEq, Repr

/-- One blocked interval of a student's stored schedule
(`studentSchedules[student].blocked_times[i]`). -/
structure BlockedTime where
  day : String
  start : List Nat
  endT : List Nat
  label : Option String
  deriving DecidableEq, Repr

/-- A student's stored schedule; `blocked_times` is optional because the
code guards it with `|| []`. -/
structure StudentSchedule where
  blocked_times : Option (List BlockedTime)
  deriving DecidableEq, Repr

/-- The expression `slot.students || (slot.student ? [slot.student] : [])`
used throughout ScheduleDisplay: a present `students` array wins (even when
empty, since an empty array is truthy); otherwise a truthy (non-empty)
`student` string is wrapped in a singleton list. -/
def slotStudents (slot : Slot) : List String :=
  match slot.students with
  | some l => l
  | none =>
    match slot.student with
    | some s => if s = ("") then [] else [s]
    | none => []

/-- The conflict message pushed by `validateEdit` for a clash with an
existing session. -/
def sessionConflictMsg (slot : Slot) : String :=
  ("Time conflicts with existing session: ") ++ codesToString (to12Hour slot.start) ++
    (" - ") ++ codesToString (to12Hour slot.endT) ++ (" (") ++
    String.intercalate (", ") (slotStudents slot) ++ (")")

/-- The conflict message pushed by `validateEdit` for a clash with a
blocked interval. -/
def blockedConflictMsg (student : String) (bt : BlockedTime) : String :=
  ("Time conflicts with ") ++ student ++ ("'s blocked hours: ") ++
    codesToString (to12Hour bt.start) ++ (" - ") ++ codesToString (to12Hour bt.endT) ++
    (match bt.label with
     | some lab => (" (") ++ lab ++ (")")
     | none => (""))

/-- The body of `validateEdit`'s first loop at index `i` and slot `slot`:
skip the slot being edited, skip blocked/lunch/prep entries, and flag a
session on the same day that shares the edited student and overlaps the
proposed range. -/
def sessionCheck (day : String) (start endT : List Nat) (student : String)
    (originalIndex : Nat) (p : Nat × Slot) : Option String :=
  if p.1 = originalIndex then none
  else if p.2.type = ("blocked") ∨ p.2.type = ("lunch") ∨ p.2.type = ("prep") then none
  else if p.2.day = day ∧ p.2.type = ("session") then
    if student ∈ slotStudents p.2 then
      if timeRangesOverlap start endT p.2.start p.2.endT then
        some (sessionConflictMsg p.2)
      else none
    else none
  else none

/-- The body of `validateEdit`'s second loop: flag a blocked interval on the
same day (compared case-insensitively) that overlaps the proposed range. -/
def blockedCheck (day : String) (start endT : List Nat) (student : String)
    (bt : BlockedTime) : Option String :=
  if jsToLowerCase bt.day = jsToLowerCase day then
    if timeRangesOverlap start endT bt.start bt.endT then
      some (blockedConflictMsg student bt)
    else none
  else none

/-- ScheduleDisplay's `validateEdit`: collect conflicts of the proposed
(day, start, end, student) edit with the other session entries of the
schedule, then (when the student is truthy and has a stored schedule) with
that student's blocked times. -/
def validateEdit (scheduleData : ScheduleData)
    (studentSchedules : List (String × StudentSchedule))
    (day : String) (start endT : List Nat) (student : String)
    (originalIndex : Nat) : List String :=
  let sessionErrors :=
    scheduleData.schedule.enum.filterMap (sessionCheck day start endT student originalIndex)
  let blockedErrors :=
    if student ≠ ("") then
      match List.lookup student studentSchedules with
      | some sched =>
        (sched.blocked_times.getD []).filterMap (blockedCheck day start endT student)
      | none => []
    else []
  sessionErrors ++ blockedErrors

/-- The edit-modal form state of ScheduleDisplay. -/
structure EditForm where
  day : String
  start : List Nat
  endT : List Nat
  student : String
  subject : String
  originalIndex : Nat
  deriving DecidableEq, Repr

/-- The outcome of `handleSaveEdit`: the (possibly updated) schedule data,
whether `onScheduleUpdate` was invoked, the validation errors left showing,
and whether the modal stayed open. -/
structure SaveEditResult where
  scheduleData : ScheduleData
  notified : Bool
  validationErrors : List String
  editingOpen : Bool
  deriving DecidableEq, Repr

/-- ScheduleDisplay's `handleSaveEdit`: re-validate the form; with errors it
only records them and returns, otherwise it overwrites the edited slot with
the form's values, notifies the parent, and closes the modal. -/
def handleSaveEdit (sd : ScheduleData)
    (studentSchedules : List (String × StudentSchedule))
    (ef : EditForm) : SaveEditResult :=
  let errors := validateEdit sd studentSchedules ef.day ef.start ef.endT ef.student
    ef.originalIndex
  if errors ≠ [] then
    { scheduleData := sd, notified := false, validationErrors := errors, editingOpen := true }
  else
    let updatedSchedule :=
      match sd.schedule[ef.originalIndex]? with
      | some slotToUpdate =>
        sd.schedule.set ef.originalIndex
          { slotToUpdate with
            day := ef.day
            start := ef.start
            endT := ef.endT
            student := some ef.student
            students := some [ef.student]
            subject := some ef.subject }
      | none => sd.schedule
    { scheduleData := { sd with schedule := updatedSchedule }
      notified := true
      validationErrors := []
      editingOpen := false }

/-- Start offset in minutes of a slot, as the display's sort comparator
computes it from `slot.start.split(':').map(Number)`. -/
def startMinutes (s : Slot) : Nat := timeToMinutes s.start

/-- Order underlying the display's sort comparator
`timeA[0] * 60 + timeA[1] - (timeB[0] * 60 + timeB[1])`. -/
def slotLe (a b : Slot) : Prop := startMinutes a ≤ startMinutes b

instance : DecidableRel slotLe :=
  fun a b => inferInstanceAs (Decidable (startMinutes a ≤ startMinutes b))

instance : IsTotal Slot slotLe := ⟨fun a b => Nat.le_total (startMinutes a) (startMinutes b)⟩

instance : IsTrans Slot slotLe := ⟨fun _ _ _ h1 h2 => Nat.le_trans h1 h2⟩

/-- The `slot.type === 'blocked'` filter applied (negated) by the display
grouping and by every export path. -/
def notBlocked (s : Slot) : Bool := !(s.type = ("blocked"))

/-- Membership test of a non-blocked slot in day `d`'s bucket. -/
def inBucket (d : String) (s : Slot) : Bool := notBlocked s && s.day = d

/-- Day `d`'s entry of ScheduleDisplay's `scheduleByDay` object: the
schedule's non-blocked slots for that day, in input order, sorted (stably)
by start time in minutes.  Days with no bucket come out as the empty list,
matching the `scheduleByDay[day]?.` accesses. -/
def scheduleByDayFun (schedule : List Slot) (d : String) : List Slot :=
  List.insertionSort slotLe (schedule.filter (inBucket d))

/-- First-occurrence deduplication, as JavaScript object keys record the
first insertion of each day. -/
def firstDedup : List String → List String
  | [] => []
  | a :: as => a :: (firstDedup as).filter (fun x => x ≠ a)

/-- The days of non-blocked schedule entries, in input order. -/
def scheduleDays (schedule : List Slot) : List String :=
  (schedule.filter notBlocked).map (fun s => s.day)

/-- The key set of the `scheduleByDay` object in insertion order: the
working days first, then any further day a non-blocked slot mentions, in
order of first appearance. -/
def dayKeys (workingDays : List String) (schedule : List Slot) : List String :=
  workingDays ++ firstDedup ((scheduleDays schedule).filter (fun d => d ∉ workingDays))

/-- The grouped-and-sorted display output flattened back into one schedule
list: each day bucket in key order. -/
def flattenByDay (workingDays : List String) (schedule : List Slot) : List Slot :=
  (dayKeys workingDays schedule).flatMap (scheduleByDayFun schedule)

/-- The students column of a CSV row:
`slot.students && slot.students.length > 0 ? join('; ') : (slot.student || '')`. -/
def csvStudents (slot : Slot) : String :=
  match slot.students with
  | some (a :: rest) => String.intercalate ("; ") (a :: rest)
  | _ => slot.student.getD ("")

/-- The header row of the CSV export. -/
def csvHeader : String := ("Day,Start,End,Type,Student(s),Subject,Label")

/-- One data row of the CSV export. -/
def csvRow (slot : Slot) : String :=
  slot.day ++ (",") ++ codesToString (to12Hour slot.start) ++ (",") ++
    codesToString (to12Hour slot.endT) ++ (",") ++ slot.type ++ (",\"") ++
    csvStudents slot ++ ("\",") ++ slot.subject.getD ("") ++ (",") ++ slot.label.getD ("")

/-- The CSV export of `exportSchedule`: the header plus one row per
schedule entry, with blocked entries filtered out. -/
def csvRows (schedule : List Slot) : List String :=
  csvHeader :: schedule.filterMap (fun slot =>
    if slot.type = ("blocked") then none else some (csvRow slot))

/-- How a `${...}` splice renders an optional string: a missing field
renders as "undefined". -/
def jsTemplate (x : Option String) : String := x.getD ("undefined")

/-- The students piece of a text-export session line:
`slot.students && slot.students.length > 0 ? join(', ') : slot.student`. -/
def textStudents (slot : Slot) : String :=
  match slot.students with
  | some (a :: rest) => String.intercalate (", ") (a :: rest)
  | _ => jsTemplate slot.student

/-- One line of the text export for a single slot, when the slot produces
one: sessions, lunch, and prep each get a line, anything else none. -/
def textLineFor (slot : Slot) : Option String :=
  if slot.type = ("blocked") then none
  else if slot.type = ("session") then
    some (("  ") ++ codesToString (to12Hour slot.start) ++ (" - ") ++
      codesToString (to12Hour slot.endT) ++ (": ") ++ textStudents slot ++ (" - ") ++
      jsTemplate slot.subject)
  else if slot.type = ("lunch") then
    some (("  ") ++ codesToString (to12Hour slot.start) ++ (" - ") ++
      codesToString (to12Hour slot.endT) ++ (": LUNCH"))
  else if slot.type = ("prep") then
    some (("  ") ++ codesToString (to12Hour slot.start) ++ (" - ") ++
      codesToString (to12Hour slot.endT) ++ (": PREP TIME"))
  else none

/-- The separator line `'─'.repeat(50)` of the text export. -/
def textSeparator : String := String.mk (List.replicate 50 ('─'))

/-- The text export of `exportSchedule`: per working day, a day heading, a
separator, and a line for each non-blocked entry of that day's bucket. -/
def textLines (workingDays : List String) (schedule : List Slot) : List String :=
  workingDays.flatMap (fun day =>
    (("\n") ++ day ++ (":")) :: textSeparator ::
      (scheduleByDayFun schedule day).filterMap textLineFor)

/-- JavaScript `trim` on a Lean-level string (ASCII whitespace). -/
def jsTrimString (s : String) : String :=
  String.mk (((s.data.dropWhile (fun c => isJsSpace c.toNat)).reverse.dropWhile
    (fun c => isJsSpace c.toNat)).reverse)

/-- CreateStudentSchedule's `timeRegex`,
`^([0-1]?[0-9]|2[0-3]):[0-5][0-9]$`: an anchored whole-string match, so the
string is either "H:MM" with any digit hour or "HH:MM" with hour 00-19 or
20-23, and minutes [0-5][0-9]. -/
def matchesTimeRegex (l : List Nat) : Bool :=
  match l with
  | [h, 58, d, e] => isDigitCode h && (48 ≤ d && d ≤ 53) && isDigitCode e
  | [a, b, 58, d, e] =>
    ((a = 48 || a = 49) && isDigitCode b || a = 50 && (48 ≤ b && b ≤ 51)) &&
      (48 ≤ d && d ≤ 53) && isDigitCode e
  | _ => false

/-- The `newBlockedTime` form state of CreateStudentSchedule; its label is a
plain (possibly empty) string. -/
structure NewBlockedTime where
  day : String
  start : List Nat
  endT : List Nat
  label : String
  deriving DecidableEq, Repr

/-- Outcome of CreateStudentSchedule's `handleAddBlockedTime`: the stored
`blockedTimes` list and the error message, either of which the call leaves
in place or replaces. -/
structure CreateAddResult where
  blockedTimes : List NewBlockedTime
  error : Option String
  deriving DecidableEq, Repr

/-- CreateStudentSchedule's `handleAddBlockedTime`: reject a missing time, a
time failing the HH:MM regex, or a start at or after the end (compared in
minutes); otherwise append the new blocked time and clear the error. -/
def handleAddBlockedTimeCreate (blockedTimes : List NewBlockedTime)
    (newBlockedTime : NewBlockedTime) : CreateAddResult :=
  if newBlockedTime.start = [] ∨ newBlockedTime.endT = [] then
    { blockedTimes := blockedTimes, error := some ("Please provide both start and end times") }
  else if !(matchesTimeRegex newBlockedTime.start) || !(matchesTimeRegex newBlockedTime.endT) then
    { blockedTimes := blockedTimes, error := some ("Time must be in HH:MM format (24-hour)") }
  else if timeToMinutes newBlockedTime.start ≥ timeToMinutes newBlockedTime.endT then
    { blockedTimes := blockedTimes, error := some ("Start time must be before end time") }
  else
    { blockedTimes := blockedTimes ++ [newBlockedTime], error := none }

/-- The blocked-time form state of StudentSchedulesView (App.jsx). -/
structure SSFormData where
  day : String
  start : List Nat
  endT : List Nat
  label : String
  isDaily : Bool
  deriving DecidableEq, Repr

/-- The Monday-Friday list `weekdays` of StudentSchedulesView. -/
def weekdays : List String :=
  [("Monday"), ("Tuesday"), ("Wednesday"), ("Thursday"), ("Friday")]

/-- JavaScript object update `{...prev, [k]: v}` on an association list:
replace the value in place when the key exists, append otherwise. -/
def setAssoc (m : List (String × List BlockedTime)) (k : String) (v : List BlockedTime) :
    List (String × List BlockedTime) :=
  if (List.lookup k m).isSome then m.map (fun p => if p.1 = k then (k, v) else p)
  else m ++ [(k, v)]

/-- Outcome of StudentSchedulesView's `handleAddBlockedTime`: the per-student
blocked-time map and the alert message, if one was raised. -/
structure AppAddResult where
  studentSchedules : List (String × List BlockedTime)
  alertMsg : Option String
  deriving DecidableEq, Repr

/-- StudentSchedulesView's `handleAddBlockedTime` (App.jsx): reject with an
alert when `formData.start >= formData.end` as JavaScript strings; otherwise
update the student's list — replacing all matching weekday entries (daily
edit), replacing the edited entry (single edit), or appending five weekday
entries (daily add) or one entry (single add). -/
def handleAddBlockedTimeApp (prevSchedules : List (String × List BlockedTime))
    (formData : SSFormData) (editingIndex : Option Nat) (editingStudent : Option String)
    (studentName : String) : AppAddResult :=
  if !(jsStrLt formData.start formData.endT) then
    { studentSchedules := prevSchedules, alertMsg := some ("End time must be after start time") }
  else
    let currentTimes := (List.lookup studentName prevSchedules).getD []
    let lab :=
      let t := jsTrimString formData.label
      if t = ("") then none else some t
    let entry := fun (day : String) =>
      BlockedTime.mk day formData.start formData.endT lab
    let updated :=
      if editingIndex.isSome ∧ editingStudent = some studentName then
        if formData.isDaily then
          (currentTimes.filter (fun bt =>
            !(bt.day ∈ weekdays ∧ bt.start = formData.start ∧ bt.endT = formData.endT))) ++
            weekdays.map entry
        else
          match editingIndex with
          | some i => currentTimes.set i (entry formData.day)
          | none => currentTimes
      else
        if formData.isDaily then currentTimes ++ weekdays.map entry
        else currentTimes ++ [entry formData.day]
    { studentSchedules := setAssoc prevSchedules studentName updated, alertMsg := none }

/-- One subject requirement of the configuration form; the three constraint
fields are nullable. -/
structure Subject where
  name : String
  constraint_type : String
  daily_minutes : Option Nat
  weekly_days : Option Nat
  weekly_minutes_per_session : Option Nat
  deriving DecidableEq, Repr

/-- One student of the configuration form. -/
structure Student where
  name : String
  subjects : List Subject
  deriving DecidableEq, Repr

/-- JavaScript `x || d` on a nullable number: null and 0 fall back to the
default. -/
def jsOrNat (x : Option Nat) (d : Nat) : Nat :=
  match x with
  | none => d
  | some n => if n = 0 then d else n

/-- JavaScript `parseInt(value) || 0` on a number-input string: the value of
the leading digits, with the empty string (NaN) collapsing to 0. -/
def jsParseIntOr0 (value : String) : Nat := parseIntCodes (value.data.map (fun c => c.toNat))

/-- The per-subject update of `updateSubject` (identical in
SchedulerConfiguration.jsx and SubjectConfiguration): setting
`constraint_type` re-derives all three constraint fields, keeping or
defaulting the variant's own fields and nulling the other variant's; any
other field is set directly, with numeric fields going through
`parseInt(value) || 0`. -/
def updateSubjectField (subject : Subject) (field value : String) : Subject :=
  if field = ("constraint_type") then
    { subject with
      constraint_type := value
      daily_minutes := if value = ("daily") then some (jsOrNat subject.daily_minutes 30) else none
      weekly_days := if value = ("weekly") then some (jsOrNat subject.weekly_days 2) else none
      weekly_minutes_per_session :=
        if value = ("weekly") then some (jsOrNat subject.weekly_minutes_per_session 30) else none }
  else if field = ("name") then { subject with name := value }
  else if field = ("daily_minutes") then
    { subject with daily_minutes := some (jsParseIntOr0 value) }
  else if field = ("weekly_days") then
    { subject with weekly_days := some (jsParseIntOr0 value) }
  else if field = ("weekly_minutes_per_session") then
    { subject with weekly_minutes_per_session := some (jsParseIntOr0 value) }
  else subject

/-- `updateSubject(studentIndex, subjectIndex, field, value)` on the
students array: rewrite the addressed subject through
`updateSubjectField`. -/
def updateSubject (students : List Student) (studentIndex subjectIndex : Nat)
    (field value : String) : List Student :=
  match students[studentIndex]? with
  | none => students
  | some student =>
    match student.subjects[subjectIndex]? with
    | none => students
    | some subject =>
      students.set studentIndex
        { student with
          subjects := student.subjects.set subjectIndex (updateSubjectField subject field value) }

/-- The configuration object handleGenerate receives (the fields its guards
inspect, plus the working-hours data it forwards). -/
structure GenConfig where
  students : List Student
  workingDays : List String
  start_time : List Nat
  end_time : List Nat
  lunchTime : List Nat
  prepTimeRequired : Bool
  deriving DecidableEq, Repr

/-- Outcome of `handleGenerate`'s synchronous prefix: the error message set,
and whether control reached the `generateSchedule` request. -/
structure GenResult where
  error : Option String
  generateCalled : Bool
  deriving DecidableEq, Repr

/-- App.jsx's `handleGenerate` guards (identical in both App versions): a
missing config, an empty student list, or a student with an empty or
all-whitespace name sets an error and returns before the scheduling request;
otherwise the request is issued. -/
def handleGenerate (config : Option GenConfig) : GenResult :=
  match config with
  | none =>
    { error := some ("Please configure students and subjects first"), generateCalled := false }
  | some cfg =>
    if cfg.students.length = 0 then
      { error := some ("Please add at least one student"), generateCalled := false }
    else if (cfg.students.filter (fun s => s.name = ("") ∨ jsTrimString s.name = (""))).length
        > 0 then
      { error := some ("All students must have names"), generateCalled := false }
    else
      { error := none, generateCalled := true }

/-- The canonical weekday list `daysOfWeek` of the configuration
components. -/
def daysOfWeek : List String :=
  [("Monday"), ("Tuesday"), ("Wednesday"), ("Thursday"), ("Friday"),
    ("Saturday"), ("Sunday")]

/-- The default working-days state. -/
def defaultWorkingDays : List String :=
  [("Monday"), ("Tuesday"), ("Wednesday"), ("Thursday"), ("Friday")]

/-- JavaScript `daysOfWeek.indexOf(d)`: the position of `d`, or -1 when
absent. -/
def dayIdx (d : String) : Int :=
  if d ∈ daysOfWeek then (List.indexOf d daysOfWeek : Int) else -1

/-- Order underlying the comparator
`daysOfWeek.indexOf(a) - daysOfWeek.indexOf(b)` of `toggleWorkingDay`. -/
def dayLe (a b : String) : Prop := dayIdx a ≤ dayIdx b

instance : DecidableRel dayLe := fun a b => inferInstanceAs (Decidable (dayIdx a ≤ dayIdx b))

instance : IsTotal String dayLe := ⟨fun a b => Int.le_total (dayIdx a) (dayIdx b)⟩

instance : IsTrans String dayLe := ⟨fun _ _ _ h1 h2 => Int.le_trans h1 h2⟩

/-- `toggleWorkingDay` (identical in SchedulerConfiguration.jsx and
SubjectConfiguration): remove the day when present, else append it and sort
by canonical weekday position. -/
def toggleWorkingDay (days : List String) (day : String) : List String :=
  if day ∈ days then days.filter (fun d => d ≠ day)
  else List.insertionSort dayLe (days ++ [day])

/-- C4: `timeRangesOverlap` treats its arguments as half-open intervals — for
genuine ranges (start before end, measured in minutes) it returns true
exactly when some minute lies in both `[start1, end1)` and `[start2, end2)`;
ranges that merely touch (`end1 = start2`) never overlap; and the predicate
is symmetric in its two ranges. -/
theorem timeRangesOverlap_halfOpen (start1 end1 start2 end2 : List Nat) :
    (timeToMinutes start1 < timeToMinutes end1 → timeToMinutes start2 < timeToMinutes end2 →
      (timeRangesOverlap start1 end1 start2 end2 = true ↔
        ∃ t : Nat, (timeToMinutes start1 ≤ t ∧ t < timeToMinutes end1) ∧
          (timeToMinutes start2 ≤ t ∧ t < timeToMinutes end2))) ∧
    (timeToMinutes end1 = timeToMinutes start2 →
      timeRangesOverlap start1 end1 start2 end2 = false) ∧
    timeRangesOverlap start1 end1 start2 end2 = timeRangesOverlap start2 end2 start1 end1 := by
  refine ⟨fun h1 h2 => ⟨fun hov => ?_, fun hex => ?_⟩, fun he => ?_, ?_⟩
  · simp only [timeRangesOverlap, Bool.not_eq_eq_eq_not, Bool.not_true, Bool.or_eq_false_iff,
      decide_eq_false_iff_not, not_le, not_lt] at hov
    exact ⟨max (timeToMinutes start1) (timeToMinutes start2), by omega⟩
  · obtain ⟨t, ⟨ha, hb⟩, hc, hd⟩ := hex
    simp only [timeRangesOverlap, Bool.not_eq_eq_eq_not, Bool.not_true, Bool.or_eq_false_iff,
      decide_eq_false_iff_not, not_le, not_lt]
    omega
  · simp only [timeRangesOverlap, Bool.not_eq_false', Bool.or_eq_true, decide_eq_true_eq]
    omega
  · rw [Bool.eq_iff_iff]
    simp only [timeRangesOverlap, Bool.not_eq_true', Bool.or_eq_false_iff,
      decide_eq_false_iff_not, not_le]
    omega

/-- Witness for C4 at 9:00-10:00 versus 9:30-10:30. -/
theorem timeRangesOverlap_halfOpen_witness :
    timeRangesOverlap (fmt24 9 0) (fmt24 10 0) (fmt24 9 30) (fmt24 10 30) = true ↔
      ∃ t : Nat, (timeToMinutes (fmt24 9 0) ≤ t ∧ t < timeToMinutes (fmt24 10 0)) ∧
        (timeToMinutes (fmt24 9 30) ≤ t ∧ t < timeToMinutes (fmt24 10 30)) :=
  (timeRangesOverlap_halfOpen (fmt24 9 0) (fmt24 10 0) (fmt24 9 30) (fmt24 10 30)).1
    (by decide) (by decide)

set_option maxRecDepth 4000 in
/-- Exhaustive check of the 12-hour round trip over all 1440 well-formed
times of a day, for both `to24Hour` variants. -/
theorem roundTrip_all_times : ∀ hh : Fin 24, ∀ mm : Fin 60,
    to24Hour (to12Hour (fmt24 hh.val mm.val)) = fmt24 hh.val mm.val ∧
    to24HourApp (to12Hour (fmt24 hh.val mm.val)) = fmt24 hh.val mm.val := by decide

/-- C9: converting a zero-padded 24-hour "HH:MM" string to 12-hour form and
back returns the original string, hour padding included, both for the
ScheduleDisplay conversion pair and for the StudentSchedulesView pair. -/
theorem to24Hour_to12Hour_roundTrip (hh mm : Nat) (hhh : hh < 24) (hmm : mm < 60) :
    to24Hour (to12Hour (fmt24 hh mm)) = fmt24 hh mm ∧
    to24HourApp (to12Hour (fmt24 hh mm)) = fmt24 hh mm :=
  roundTrip_all_times ⟨hh, hhh⟩ ⟨mm, hmm⟩

/-- Witness for C9 at 13:05. -/
theorem to24Hour_to12Hour_roundTrip_witness :
    to24Hour (to12Hour (fmt24 13 5)) = fmt24 13 5 ∧
    to24HourApp (to12Hour (fmt24 13 5)) = fmt24 13 5 :=
  to24Hour_to12Hour_roundTrip 13 5 (by decide) (by decide)

/-- C7: with zero students, or with a student whose name is empty or only
whitespace, `handleGenerate` sets an error and returns before issuing the
scheduling request. -/
theorem handleGenerate_rejects_invalid (cfg : GenConfig)
    (h : cfg.students = [] ∨ ∃ s ∈ cfg.students, s.name = ("") ∨ jsTrimString s.name = ("")) :
    (handleGenerate (some cfg)).error.isSome = true ∧
    (handleGenerate (some cfg)).generateCalled = false := by
  simp only [handleGenerate]
  split_ifs with h1 h2
  · exact ⟨rfl, rfl⟩
  · exact ⟨rfl, rfl⟩
  · exfalso
    rcases h with hnil | ⟨s, hs, hname⟩
    · exact h1 (by rw [hnil]; rfl)
    · apply h2
      have hmem : s ∈ cfg.students.filter
          (fun s => decide (s.name = ("") ∨ jsTrimString s.name = (""))) :=
        List.mem_filter.mpr ⟨hs, by simpa using hname⟩
      have := List.length_pos.mpr (List.ne_nil_of_mem hmem)
      omega

/-- Witness for C7: one student whose name is a single space. -/
theorem handleGenerate_rejects_invalid_witness :
    (handleGenerate (some
      { students := [{ name := (" "), subjects := [] }]
        workingDays := defaultWorkingDays
        start_time := fmt24 8 0
        end_time := fmt24 17 0
        lunchTime := fmt24 12 0
        prepTimeRequired := true })).error.isSome = true ∧
    (handleGenerate (some
      { students := [{ name := (" "), subjects := [] }]
        workingDays := defaultWorkingDays
        start_time := fmt24 8 0
        end_time := fmt24 17 0
        lunchTime := fmt24 12 0
        prepTimeRequired := true })).generateCalled = false :=
  handleGenerate_rejects_invalid _
    (Or.inr ⟨{ name := (" "), subjects := [] }, by decide, Or.inr (by decide)⟩)

/-- C6: setting `constraint_type` through `updateSubject` always leaves the
addressed subject in exactly one variant — `daily` populates
`daily_minutes` and nulls both weekly fields, `weekly` populates both
weekly fields and nulls `daily_minutes`. -/
theorem updateSubject_constraint_type_exclusive (students : List Student)
    (si sj : Nat) (value : String) (stu : Student) (subj : Subject)
    (hstu : students[si]? = some stu) (hsubj : stu.subjects[sj]? = some subj) :
    ∃ stu', (updateSubject students si sj ("constraint_type") value)[si]? = some stu' ∧
      ∃ subj', stu'.subjects[sj]? = some subj' ∧
        subj'.constraint_type = value ∧
        (value = ("daily") →
          subj'.daily_minutes.isSome = true ∧ subj'.weekly_days = none ∧
            subj'.weekly_minutes_per_session = none) ∧
        (value = ("weekly") →
          subj'.weekly_days.isSome = true ∧ subj'.weekly_minutes_per_session.isSome = true ∧
            subj'.daily_minutes = none) := by
  have hsi : si < students.length := by
    rcases List.getElem?_eq_some.mp hstu with ⟨hlt, _⟩
    exact hlt
  have hsj : sj < stu.subjects.length := by
    rcases List.getElem?_eq_some.mp hsubj with ⟨hlt, _⟩
    exact hlt
  simp only [updateSubject, hstu, hsubj]
  refine ⟨_, List.getElem?_set_eq_of_lt _ hsi, _,
    List.getElem?_set_eq_of_lt _ (by simpa using hsj), ?_, ?_, ?_⟩
  · simp [updateSubjectField]
  · intro hv
    subst hv
    simp [updateSubjectField]
  · intro hv
    subst hv
    simp [updateSubjectField]

/-- Witness for C6: switching the sole subject of the sole student to
`weekly`. -/
theorem updateSubject_constraint_type_exclusive_witness :
    ∃ stu', (updateSubject
        [{ name := ("Ava"),
           subjects :=
             [{ name := ("Math"), constraint_type := ("daily"), daily_minutes := some 30,
                weekly_days := none, weekly_minutes_per_session := none }] }]
        0 0 ("constraint_type") ("weekly"))[0]? = some stu' ∧
      ∃ subj', stu'.subjects[0]? = some subj' ∧
        subj'.constraint_type = ("weekly") ∧
        (("weekly") = ("daily") →
          subj'.daily_minutes.isSome = true ∧ subj'.weekly_days = none ∧
            subj'.weekly_minutes_per_session = none) ∧
        (("weekly") = ("weekly") →
          subj'.weekly_days.isSome = true ∧ subj'.weekly_minutes_per_session.isSome = true ∧
            subj'.daily_minutes = none) :=
  updateSubject_constraint_type_exclusive _ 0 0 ("weekly") _ _ rfl rfl

/-- C8: `handleSaveEdit` is atomic with respect to validation — when
`validateEdit` reports any error for the form's values, the schedule data
is left unchanged and the parent is not notified. -/
theorem handleSaveEdit_atomic (sd : ScheduleData) (ss : List (String × StudentSchedule))
    (ef : EditForm)
    (h : validateEdit sd ss ef.day ef.start ef.endT ef.student ef.originalIndex ≠ []) :
    (handleSaveEdit sd ss ef).scheduleData = sd ∧
    (handleSaveEdit sd ss ef).notified = false := by
  simp only [handleSaveEdit]
  rw [if_pos h]
  exact ⟨rfl, rfl⟩

/-- Witness for C8: editing a session into collision with a second session
of the same student leaves the schedule untouched. -/
theorem handleSaveEdit_atomic_witness :
    (handleSaveEdit
      { schedule :=
          [⟨("session"), ("Monday"), fmt24 9 0, fmt24 9 30, some ("Alice"), none,
            some ("Math"), none⟩,
           ⟨("session"), ("Monday"), fmt24 9 30, fmt24 10 30, some ("Alice"), none,
            some ("Reading"), none⟩],
        success := true, message := (""), conflicts := [] }
      []
      { day := ("Monday"), start := fmt24 10 0, endT := fmt24 11 0,
        student := ("Alice"), subject := ("Math"), originalIndex := 0 }).scheduleData =
      { schedule :=
          [⟨("session"), ("Monday"), fmt24 9 0, fmt24 9 30, some ("Alice"), none,
            some ("Math"), none⟩,
           ⟨("session"), ("Monday"), fmt24 9 30, fmt24 10 30, some ("Alice"), none,
            some ("Reading"), none⟩],
        success := true, message := (""), conflicts := [] } ∧
    (handleSaveEdit
      { schedule :=
          [⟨("session"), ("Monday"), fmt24 9 0, fmt24 9 30, some ("Alice"), none,
            some ("Math"), none⟩,
           ⟨("session"), ("Monday"), fmt24 9 30, fmt24 10 30, some ("Alice"), none,
            some ("Reading"), none⟩],
        success := true, message := (""), conflicts := [] }
      []
      { day := ("Monday"), start := fmt24 10 0, endT := fmt24 11 0,
        student := ("Alice"), subject := ("Math"), originalIndex := 0 }).notified = false :=
  handleSaveEdit_atomic _ _ _ (by decide)

/-- On zero-padded "HH:MM" strings, JavaScript's lexicographic string
comparison agrees with comparison of the times in minutes. -/
theorem jsStrLt_fmt24_iff (h1 m1 h2 m2 : Nat) (hh1 : h1 < 24) (hm1 : m1 < 60)
    (hh2 : h2 < 24) (hm2 : m2 < 60) :
    jsStrLt (fmt24 h1 m1) (fmt24 h2 m2) = true ↔ h1 * 60 + m1 < h2 * 60 + m2 := by
  simp only [fmt24, pad2Codes, List.cons_append, List.nil_append, jsStrLt]
  split_ifs <;> simp_all <;> omega

/-- C2: both add-blocked-time handlers reject a proposed interval whose
start is at or after its end — CreateStudentSchedule by comparing minutes,
StudentSchedulesView by comparing the zero-padded time strings — reporting
an error and leaving the stored blocked-times data unchanged. -/
theorem addBlockedTime_rejects_start_ge_end :
    (∀ (blockedTimes : List NewBlockedTime) (newBlockedTime : NewBlockedTime),
      timeToMinutes newBlockedTime.endT ≤ timeToMinutes newBlockedTime.start →
      (handleAddBlockedTimeCreate blockedTimes newBlockedTime).blockedTimes = blockedTimes ∧
      (handleAddBlockedTimeCreate blockedTimes newBlockedTime).error.isSome = true) ∧
    (∀ (prev : List (String × List BlockedTime)) (fd : SSFormData)
      (ei : Option Nat) (es : Option String) (sn : String) (h1 m1 h2 m2 : Nat),
      h1 < 24 → m1 < 60 → h2 < 24 → m2 < 60 →
      fd.start = fmt24 h1 m1 → fd.endT = fmt24 h2 m2 →
      h2 * 60 + m2 ≤ h1 * 60 + m1 →
      (handleAddBlockedTimeApp prev fd ei es sn).studentSchedules = prev ∧
      (handleAddBlockedTimeApp prev fd ei es sn).alertMsg.isSome = true) := by
  constructor
  · intro bts nbt hge
    simp only [handleAddBlockedTimeCreate]
    split_ifs with g1 g2
    · exact ⟨rfl, rfl⟩
    · exact ⟨rfl, rfl⟩
    · exact ⟨rfl, rfl⟩
  · intro prev fd ei es sn h1 m1 h2 m2 hh1 hm1 hh2 hm2 hs he hge
    have hlt : jsStrLt fd.start fd.endT = false := by
      rw [hs, he]
      rcases hb : jsStrLt (fmt24 h1 m1) (fmt24 h2 m2) with _ | _
      · rfl
      · have := (jsStrLt_fmt24_iff h1 m1 h2 m2 hh1 hm1 hh2 hm2).mp hb
        omega
    simp [handleAddBlockedTimeApp, hlt]

/-- Witness for C2: 10:00-09:00 is rejected by both handlers. -/
theorem addBlockedTime_rejects_start_ge_end_witness :
    ((handleAddBlockedTimeCreate []
        { day := ("Monday"), start := fmt24 10 0, endT := fmt24 9 0,
          label := ("") }).blockedTimes = [] ∧
      (handleAddBlockedTimeCreate []
        { day := ("Monday"), start := fmt24 10 0, endT := fmt24 9 0,
          label := ("") }).error.isSome = true) ∧
    ((handleAddBlockedTimeApp []
        { day := ("Monday"), start := fmt24 10 0, endT := fmt24 9 0, label := (""),
          isDaily := false }
        none none ("Alice")).studentSchedules = [] ∧
      (handleAddBlockedTimeApp []
        { day := ("Monday"), start := fmt24 10 0, endT := fmt24 9 0, label := (""),
          isDaily := false }
        none none ("Alice")).alertMsg.isSome = true) :=
  ⟨addBlockedTime_rejects_start_ge_end.1 []
      { day := ("Monday"), start := fmt24 10 0, endT := fmt24 9 0, label := ("") }
      (by decide),
    addBlockedTime_rejects_start_ge_end.2 []
      { day := ("Monday"), start := fmt24 10 0, endT := fmt24 9 0, label := (""),
        isDaily := false }
      none none ("Alice") 10 0 9 0 (by decide) (by decide) (by decide) (by decide)
      rfl rfl (by decide)⟩

/-- A filterMap is non-empty exactly when some element of the input maps to
`some`. -/
theorem filterMap_ne_nil_iff {α β : Type} (f : α → Option β) (l : List α) :
    l.filterMap f ≠ [] ↔ ∃ a ∈ l, (f a).isSome = true := by
  rw [ne_eq, List.filterMap_eq_nil_iff]
  push_neg
  constructor
  · rintro ⟨a, ha, hne⟩
    exact ⟨a, ha, Option.isSome_iff_ne_none.mpr hne⟩
  · rintro ⟨a, ha, hs⟩
    exact ⟨a, ha, Option.isSome_iff_ne_none.mp hs⟩

/-- `sessionCheck` produces an error exactly for a session entry other than
the edited one, on the proposed day, sharing the edited student, whose time
range overlaps the proposal. -/
theorem sessionCheck_isSome_iff (day : String) (start endT : List Nat) (student : String)
    (oi : Nat) (p : Nat × Slot) :
    (sessionCheck day start endT student oi p).isSome = true ↔
      p.1 ≠ oi ∧ p.2.type = ("session") ∧ p.2.day = day ∧ student ∈ slotStudents p.2 ∧
        timeRangesOverlap start endT p.2.start p.2.endT = true := by
  unfold sessionCheck
  split_ifs with h1 h2 h3 h4 h5 <;> simp_all
  · intro hty hday hmem
    rw [hty] at h2
    rcases h2 with h2 | h2 | h2 <;> exact absurd h2 (by decide)
  · intro hty hday hmem
    exact absurd hty (h3 hday)

/-- `blockedCheck` produces an error exactly for a blocked interval on the
proposed day (compared case-insensitively) whose time range overlaps the
proposal. -/
theorem blockedCheck_isSome_iff (day : String) (start endT : List Nat) (student : String)
    (bt : BlockedTime) :
    (blockedCheck day start endT student bt).isSome = true ↔
      jsToLowerCase bt.day = jsToLowerCase day ∧
        timeRangesOverlap start endT bt.start bt.endT = true := by
  unfold blockedCheck
  split_ifs with h1 h2 <;> simp_all

/-- Amended C1: `validateEdit` reports at least one error exactly when the
proposed range overlaps another session entry of the schedule on the same
day involving the edited student, or overlaps one of that student's stored
blocked times on the same day (compared case-insensitively).  Overlaps with
lunch, prep, or `blocked`-tagged schedule entries are not checked. -/
theorem validateEdit_conflict_iff (sd : ScheduleData)
    (ss : List (String × StudentSchedule)) (day : String) (start endT : List Nat)
    (student : String) (oi : Nat) :
    validateEdit sd ss day start endT student oi ≠ [] ↔
      ((∃ p ∈ sd.schedule.enum, p.1 ≠ oi ∧ p.2.type = ("session") ∧ p.2.day = day ∧
          student ∈ slotStudents p.2 ∧
          timeRangesOverlap start endT p.2.start p.2.endT = true) ∨
        (student ≠ ("") ∧ ∃ sched, List.lookup student ss = some sched ∧
          ∃ bt ∈ sched.blocked_times.getD [],
            jsToLowerCase bt.day = jsToLowerCase day ∧
            timeRangesOverlap start endT bt.start bt.endT = true)) := by
  simp only [validateEdit]
  rw [ne_eq, List.append_eq_nil, not_and_or]
  apply or_congr
  · rw [← ne_eq, filterMap_ne_nil_iff]
    exact exists_congr fun p => and_congr_right fun _ => sessionCheck_isSome_iff _ _ _ _ _ _
  · by_cases hstu : student = ("")
    · simp [hstu]
    · rw [if_pos hstu]
      cases hlk : List.lookup student ss with
      | none => simp [hstu]
      | some sched =>
        rw [← ne_eq, filterMap_ne_nil_iff]
        simp only [blockedCheck_isSome_iff]
        constructor
        · rintro ⟨bt, hbt, hconds⟩
          exact ⟨hstu, sched, rfl, bt, hbt, hconds⟩
        · rintro ⟨_, sched', hsched', bt, hbt, hconds⟩
          obtain rfl := Option.some_inj.mp hsched'
          exact ⟨bt, hbt, hconds⟩

/-- Witness for the amended C1: an edit overlapping a second session of the
same student is flagged. -/
theorem validateEdit_conflict_iff_witness :
    validateEdit
      { schedule :=
          [⟨("session"), ("Monday"), fmt24 9 0, fmt24 9 30, some ("Alice"), none,
            some ("Math"), none⟩,
           ⟨("session"), ("Monday"), fmt24 9 30, fmt24 10 30, some ("Alice"), none,
            some ("Reading"), none⟩],
        success := true, message := (""), conflicts := [] }
      [] (("Monday")) (fmt24 10 0) (fmt24 11 0) (("Alice")) 0 ≠ [] :=
  (validateEdit_conflict_iff
      { schedule :=
          [⟨("session"), ("Monday"), fmt24 9 0, fmt24 9 30, some ("Alice"), none,
            some ("Math"), none⟩,
           ⟨("session"), ("Monday"), fmt24 9 30, fmt24 10 30, some ("Alice"), none,
            some ("Reading"), none⟩],
        success := true, message := (""), conflicts := [] }
      [] (("Monday")) (fmt24 10 0) (fmt24 11 0) (("Alice")) 0).mpr
    (Or.inl ⟨(1, ⟨("session"), ("Monday"), fmt24 9 30, fmt24 10 30, some ("Alice"), none,
        some ("Reading"), none⟩), by decide, by decide, by decide, by decide, by decide⟩)

/-- Counterexample to C1 as stated: a proposed edit that exactly covers the
lunch block on the same day produces no validation error — overlaps with
lunch (and prep, and `blocked` schedule entries) are skipped by
`validateEdit`'s explicit `continue`. -/
theorem validateEdit_misses_lunch_overlap :
    validateEdit
      { schedule :=
          [⟨("session"), ("Monday"), fmt24 9 0, fmt24 9 30, some ("Alice"), none,
            some ("Math"), none⟩,
           ⟨("lunch"), ("Monday"), fmt24 12 0, fmt24 12 30, none, none, none, none⟩],
        success := true, message := (""), conflicts := [] }
      [] (("Monday")) (fmt24 12 0) (fmt24 12 30) (("Alice")) 0 = [] ∧
    (⟨("lunch"), ("Monday"), fmt24 12 0, fmt24 12 30, none, none, none, none⟩ : Slot).type =
      ("lunch") ∧
    (⟨("lunch"), ("Monday"), fmt24 12 0, fmt24 12 30, none, none, none, none⟩ : Slot).day =
      ("Monday") ∧
    timeRangesOverlap (fmt24 12 0) (fmt24 12 30) (fmt24 12 0) (fmt24 12 30) = true := by
  decide

/-- Counterexample to C3 as stated: a `blocked` schedule entry on a working
day appears neither in that day's display bucket, nor in the CSV rows, nor
in the text export — every display path filters `blocked` entries out. -/
theorem blocked_entries_dropped_from_display :
    scheduleByDayFun
      [⟨("blocked"), ("Monday"), fmt24 9 0, fmt24 10 0, none, none, none, none⟩]
      ("Monday") = [] ∧
    csvRows [⟨("blocked"), ("Monday"), fmt24 9 0, fmt24 10 0, none, none, none, none⟩] =
      [csvHeader] ∧
    textLines [("Monday")]
      [⟨("blocked"), ("Monday"), fmt24 9 0, fmt24 10 0, none, none, none, none⟩] =
      [("\nMonday:"), textSeparator] := by
  refine ⟨by decide, by decide, ?_⟩
  simp [textLines, scheduleByDayFun, List.filter, inBucket, notBlocked,
    List.insertionSort]

/-- Amended C3: the display grouping and the CSV and text exports carry
exactly the non-`blocked` schedule entries — a slot appears in day `d`'s
bucket iff it is a non-blocked entry for `d`, the CSV is the header plus one
row per non-blocked entry, and `blocked` entries never influence the text
export. -/
theorem display_and_exports_filter_blocked (schedule : List Slot)
    (workingDays : List String) (d : String) :
    (∀ slot, slot ∈ scheduleByDayFun schedule d ↔
      slot ∈ schedule ∧ slot.type ≠ ("blocked") ∧ slot.day = d) ∧
    csvRows schedule = csvHeader :: (schedule.filter notBlocked).map csvRow ∧
    textLines workingDays schedule = textLines workingDays (schedule.filter notBlocked) := by
  refine ⟨fun slot => ?_, ?_, ?_⟩
  · rw [scheduleByDayFun, (List.perm_insertionSort slotLe _).mem_iff, List.mem_filter]
    simp [inBucket, notBlocked, and_assoc]
  · rw [csvRows]
    congr 1
    induction schedule with
    | nil => rfl
    | cons a as ih =>
      by_cases h : a.type = ("blocked") <;>
        simp [List.filterMap_cons, List.filter_cons, notBlocked, h, ih]
  · have key : ∀ day, scheduleByDayFun (schedule.filter notBlocked) day =
        scheduleByDayFun schedule day := by
      intro day
      unfold scheduleByDayFun
      rw [List.filter_filter]
      congr 1
      apply List.filter_congr
      intro x _
      cases hnb : notBlocked x <;> simp [inBucket, hnb]
    unfold textLines
    simp only [key]

/-- A slot of a day bucket satisfies that bucket's membership predicate. -/
theorem mem_scheduleByDayFun_inBucket {schedule : List Slot} {d : String} {x : Slot}
    (hx : x ∈ scheduleByDayFun schedule d) : inBucket d x = true := by
  rw [scheduleByDayFun, (List.perm_insertionSort slotLe _).mem_iff, List.mem_filter] at hx
  exact hx.2

/-- `firstDedup` preserves membership. -/
theorem mem_firstDedup {x : String} : ∀ {l : List String}, x ∈ firstDedup l ↔ x ∈ l := by
  intro l
  induction l with
  | nil => simp [firstDedup]
  | cons a as ih =>
    simp only [firstDedup, List.mem_cons, List.mem_filter]
    constructor
    · rintro (rfl | ⟨hx, _⟩)
      · exact Or.inl rfl
      · exact Or.inr (ih.mp hx)
    · rintro (rfl | hx)
      · exact Or.inl rfl
      · by_cases hxa : x = a
        · exact Or.inl hxa
        · exact Or.inr ⟨ih.mpr hx, by simpa using hxa⟩

/-- `firstDedup` produces a duplicate-free list. -/
theorem nodup_firstDedup : ∀ l : List String, (firstDedup l).Nodup := by
  intro l
  induction l with
  | nil => simp [firstDedup]
  | cons a as ih =>
    rw [firstDedup, List.nodup_cons]
    refine ⟨?_, ih.filter _⟩
    intro hmem
    rw [List.mem_filter] at hmem
    simpa using hmem.2

/-- Filtering distributes over flatMap. -/
theorem filter_flatMap {α β : Type} (l : List α) (g : α → List β) (p : β → Bool) :
    (l.flatMap g).filter p = l.flatMap (fun a => (g a).filter p) := by
  induction l with
  | nil => rfl
  | cons a as ih => simp [List.filter_append, ih]

/-- A flatMap over duplicate-free keys whose function vanishes away from one
key collapses to that key's value. -/
theorem flatMap_single_support {α β : Type} [DecidableEq α] (keys : List α)
    (g : α → List β) (d : α) (hnd : keys.Nodup)
    (h0 : ∀ k ∈ keys, k ≠ d → g k = []) :
    keys.flatMap g = if d ∈ keys then g d else [] := by
  induction keys with
  | nil => simp
  | cons a as ih =>
    rw [List.nodup_cons] at hnd
    rw [List.flatMap_cons]
    by_cases had : a = d
    · subst had
      have hz : as.flatMap g = [] := by
        rw [List.flatMap_eq_nil_iff]
        intro k hk
        exact h0 k (List.mem_cons_of_mem _ hk) (fun he => hnd.1 (he ▸ hk))
      rw [hz, List.append_nil, if_pos (List.mem_cons_self _ _)]
    · rw [h0 a (List.mem_cons_self _ _) had, List.nil_append,
        ih hnd.2 (fun k hk => h0 k (List.mem_cons_of_mem _ hk))]
      have hiff : d ∈ a :: as ↔ d ∈ as := by
        rw [List.mem_cons]
        exact or_iff_right (fun h => had h.symm)
      rw [if_congr hiff rfl rfl]

/-- C5: the display-side assembly is idempotent — regrouping and re-sorting
the flattened grouped-and-sorted output reproduces the same per-day lists,
for every schedule and every duplicate-free working-day set. -/
theorem scheduleByDay_idempotent (workingDays : List String) (schedule : List Slot)
    (hnd : workingDays.Nodup) (d : String) :
    scheduleByDayFun (flattenByDay workingDays schedule) d =
      scheduleByDayFun schedule d := by
  have hkeys : (dayKeys workingDays schedule).Nodup := by
    rw [dayKeys, List.nodup_append]
    refine ⟨hnd, nodup_firstDedup _, ?_⟩
    intro a ha hb
    rw [mem_firstDedup, List.mem_filter] at hb
    exact absurd ha (by simpa using hb.2)
  have hzero : ∀ k ∈ dayKeys workingDays schedule, k ≠ d →
      (scheduleByDayFun schedule k).filter (inBucket d) = [] := by
    intro k hk hkd
    rw [List.filter_eq_nil_iff]
    intro x hx hbd
    have hbk := mem_scheduleByDayFun_inBucket hx
    rw [inBucket, Bool.and_eq_true, decide_eq_true_eq] at hbk hbd
    exact hkd (by rw [← hbk.2, hbd.2])
  have hself : (scheduleByDayFun schedule d).filter (inBucket d) =
      scheduleByDayFun schedule d :=
    List.filter_eq_self.mpr (fun x hx => mem_scheduleByDayFun_inBucket hx)
  have hfilter : (flattenByDay workingDays schedule).filter (inBucket d) =
      if d ∈ dayKeys workingDays schedule then scheduleByDayFun schedule d else [] := by
    rw [flattenByDay, filter_flatMap,
      flatMap_single_support (dayKeys workingDays schedule)
        (fun k => (scheduleByDayFun schedule k).filter (inBucket d)) d hkeys hzero, hself]
  by_cases hd : d ∈ dayKeys workingDays schedule
  · rw [scheduleByDayFun, hfilter, if_pos hd]
    exact List.Sorted.insertionSort_eq
      (by rw [scheduleByDayFun]; exact List.sorted_insertionSort _ _)
  · have hempty : schedule.filter (inBucket d) = [] := by
      rw [List.filter_eq_nil_iff]
      intro x hx hbd
      rw [inBucket, Bool.and_eq_true, decide_eq_true_eq] at hbd
      apply hd
      rw [dayKeys, List.mem_append]
      by_cases hwd : d ∈ workingDays
      · exact Or.inl hwd
      · refine Or.inr ?_
        rw [mem_firstDedup, List.mem_filter]
        refine ⟨?_, by simpa using hwd⟩
        rw [scheduleDays, List.mem_map]
        exact ⟨x, List.mem_filter.mpr ⟨hx, hbd.1⟩, hbd.2⟩
    rw [scheduleByDayFun, hfilter, if_neg hd, scheduleByDayFun, hempty]

/-- Witness for C5: one working day, two out-of-order sessions. -/
theorem scheduleByDay_idempotent_witness :
    scheduleByDayFun
      (flattenByDay [("Monday")]
        [⟨("session"), ("Monday"), fmt24 9 30, fmt24 10 0, some ("Alice"), none,
          some ("Math"), none⟩,
         ⟨("session"), ("Monday"), fmt24 9 0, fmt24 9 30, some ("Alice"), none,
          some ("Reading"), none⟩])
      ("Monday") =
    scheduleByDayFun
      [⟨("session"), ("Monday"), fmt24 9 30, fmt24 10 0, some ("Alice"), none,
        some ("Math"), none⟩,
       ⟨("session"), ("Monday"), fmt24 9 0, fmt24 9 30, some ("Alice"), none,
        some ("Reading"), none⟩]
      ("Monday") :=
  scheduleByDay_idempotent [("Monday")] _ (by decide) ("Monday")

/-- `dayIdx` is injective on canonical weekday names. -/
theorem dayIdx_inj {a b : String} (ha : a ∈ daysOfWeek) (hb : b ∈ daysOfWeek)
    (h : dayIdx a = dayIdx b) : a = b := by
  unfold dayIdx at h
  rw [if_pos ha, if_pos hb] at h
  exact (List.indexOf_inj ha hb).mp (by exact_mod_cast h)

/-- The working-days invariant: strictly increasing canonical positions, and
only canonical day names. -/
def goodDays (l : List String) : Prop :=
  l.Pairwise (fun a b => dayIdx a < dayIdx b) ∧ ∀ x ∈ l, x ∈ daysOfWeek

/-- Strictly increasing canonical positions rule out duplicates. -/
theorem goodDays_nodup {l : List String} (h : goodDays l) : l.Nodup :=
  h.1.imp (fun hlt heq => by rw [heq] at hlt; exact lt_irrefl _ hlt)

/-- `toggleWorkingDay` with a canonical day preserves the invariant. -/
theorem toggleWorkingDay_preserves {l : List String} {d : String}
    (hd : d ∈ daysOfWeek) (h : goodDays l) : goodDays (toggleWorkingDay l d) := by
  unfold toggleWorkingDay
  split_ifs with hmem
  · exact ⟨h.1.sublist (List.filter_sublist l),
      fun x hx => h.2 x (List.mem_of_mem_filter hx)⟩
  · have hmem' : ∀ x ∈ l ++ [d], x ∈ daysOfWeek := by
      intro x hx
      rcases List.mem_append.mp hx with hx | hx
      · exact h.2 x hx
      · rw [List.mem_singleton] at hx
        exact hx ▸ hd
    have hnd : (l ++ [d]).Nodup := by
      rw [List.nodup_append]
      refine ⟨goodDays_nodup h, List.nodup_singleton d, ?_⟩
      intro a ha hb
      rw [List.mem_singleton] at hb
      exact hmem (hb ▸ ha)
    have hperm := List.perm_insertionSort dayLe (l ++ [d])
    have hsorted : List.Sorted dayLe (List.insertionSort dayLe (l ++ [d])) :=
      List.sorted_insertionSort dayLe (l ++ [d])
    have hnd' : (List.insertionSort dayLe (l ++ [d])).Nodup := hperm.nodup_iff.mpr hnd
    have hmem'' : ∀ x ∈ List.insertionSort dayLe (l ++ [d]), x ∈ daysOfWeek :=
      fun x hx => hmem' x (hperm.mem_iff.mp hx)
    refine ⟨?_, hmem''⟩
    exact (hsorted.and hnd').imp_of_mem (fun hma hmb hab =>
      lt_of_le_of_ne hab.1
        (fun heq => hab.2 (dayIdx_inj (hmem'' _ hma) (hmem'' _ hmb) heq)))

/-- Folding `toggleWorkingDay` over canonical days preserves the
invariant. -/
theorem foldl_toggle_preserves : ∀ (ops : List String) (l : List String),
    goodDays l → (∀ d ∈ ops, d ∈ daysOfWeek) →
    goodDays (ops.foldl toggleWorkingDay l) := by
  intro ops
  induction ops with
  | nil => intro l h _; exact h
  | cons d ops ih =>
    intro l h hops
    rw [List.foldl_cons]
    exact ih _ (toggleWorkingDay_preserves (hops d (List.mem_cons_self _ _)) h)
      (fun x hx => hops x (List.mem_cons_of_mem _ hx))

/-- C10: starting from the default configuration, any sequence of
`toggleWorkingDay` operations on canonical weekday names keeps the
working-days list duplicate-free and in strictly increasing
Monday-through-Sunday order. -/
theorem toggleWorkingDay_sorted_nodup (ops : List String)
    (hops : ∀ d ∈ ops, d ∈ daysOfWeek) :
    (ops.foldl toggleWorkingDay defaultWorkingDays).Nodup ∧
    (ops.foldl toggleWorkingDay defaultWorkingDays).Pairwise
      (fun a b => dayIdx a < dayIdx b) := by
  have hbase : goodDays defaultWorkingDays := by
    constructor
    · decide
    · decide
  have h := foldl_toggle_preserves ops defaultWorkingDays hbase hops
  exact ⟨goodDays_nodup h, h.1⟩

/-- Witness for C10: toggling Saturday on and Wednesday off. -/
theorem toggleWorkingDay_sorted_nodup_witness :
    (([("Saturday"), ("Wednesday")] : List String).foldl toggleWorkingDay
        defaultWorkingDays).Nodup ∧
    (([("Saturday"), ("Wednesday")] : List String).foldl toggleWorkingDay
        defaultWorkingDays).Pairwise (fun a b => dayIdx a < dayIdx b) :=
  toggleWorkingDay_sorted_nodup [("Saturday"), ("Wednesday")] (by decide)

end EasyCal
